import Mathlib

/-!
Verification of the psnet network monitor core against its specification.

The definitions below are a shallow embedding of the Rust sources:
  - src/types.rs        (ConnProto, TcpState, Connection, ConnKey, TrafficEntry, ...)
  - src/utils.rs        (ntohs)
  - src/network/capture.rs (TrafficTracker: update, push_event, clear)
  - src/app.rs          (the DNS cache merge step of App::resolve_dns)
  - src/ui/capture.rs   (the hide_localhost view filter of draw_traffic)
  - src/network/sniffer.rs (extract_best_snippet)

Machine integers are modelled as Nat with explicit truncation where the Rust
code truncates; Rust HashMap values are modelled as association lists with a
replace-on-insert operation; NaiveTime timestamps are modelled as an opaque-
to-the-logic Nat tick value.
-/

set_option maxRecDepth 4000

-- ─── IP addresses (std::net::IpAddr, as used by the repository) ──────────────

/-- Model of std::net::IpAddr: a v4 address holds its four octets, a v6
address holds its eight 16-bit segments. -/
inductive IpAddr
  | v4 (a b c d : Nat)
  | v6 (segs : List Nat)
deriving DecidableEq, Repr

/-- Model of IpAddr::is_loopback: a v4 address is loopback when its first
octet is 127; a v6 address is loopback when it is ::1. -/
def IpAddr.isLoopback : IpAddr → Bool
  | .v4 a _ _ _ => a == 127
  | .v6 segs => segs == [0, 0, 0, 0, 0, 0, 0, 1]

-- ─── src/types.rs ────────────────────────────────────────────────────────────

/-- ConnProto from src/types.rs. -/
inductive ConnProto
  | tcp
  | udp
deriving DecidableEq, Repr

/-- ConnProto::label from src/types.rs. -/
def ConnProto.label : ConnProto → String
  | .tcp => "TCP"
  | .udp => "UDP"

/-- TcpState from src/types.rs: the eleven standard states, DELETE_TCB, and
an Unknown variant carrying the raw numeric value. -/
inductive TcpState
  | closed
  | listen
  | synSent
  | synReceived
  | established
  | finWait1
  | finWait2
  | closeWait
  | closing
  | lastAck
  | timeWait
  | deleteTcb
  | unknown (raw : Nat)
deriving DecidableEq, Repr

/-- TcpState::from_raw from src/types.rs. -/
def TcpState.from_raw (v : Nat) : TcpState :=
  match v with
  | 1 => .closed
  | 2 => .listen
  | 3 => .synSent
  | 4 => .synReceived
  | 5 => .established
  | 6 => .finWait1
  | 7 => .finWait2
  | 8 => .closeWait
  | 9 => .closing
  | 10 => .lastAck
  | 11 => .timeWait
  | 12 => .deleteTcb
  | _ => .unknown v

/-- TcpState::label from src/types.rs. -/
def TcpState.label : TcpState → String
  | .closed => "CLOSED"
  | .listen => "LISTEN"
  | .synSent => "SYN_SENT"
  | .synReceived => "SYN_RECV"
  | .established => "ESTABLISHED"
  | .finWait1 => "FIN_WAIT1"
  | .finWait2 => "FIN_WAIT2"
  | .closeWait => "CLOSE_WAIT"
  | .closing => "CLOSING"
  | .lastAck => "LAST_ACK"
  | .timeWait => "TIME_WAIT"
  | .deleteTcb => "DELETE_TCB"
  | .unknown _ => "UNKNOWN"

/-- Connection from src/types.rs. Ports are u16, pid is u32, both as Nat. -/
structure Connection where
  proto : ConnProto
  local_addr : IpAddr
  local_port : Nat
  remote_addr : Option IpAddr
  remote_port : Option Nat
  state : Option TcpState
  pid : Nat
  process_name : String
  dns_hostname : Option String
deriving DecidableEq, Repr

/-- ConnKey from src/types.rs. -/
structure ConnKey where
  proto : ConnProto
  local_addr : IpAddr
  local_port : Nat
  remote_addr : Option IpAddr
  remote_port : Option Nat
deriving DecidableEq, Repr

/-- Connection::key from src/types.rs. -/
def Connection.key (c : Connection) : ConnKey :=
  { proto := c.proto
    local_addr := c.local_addr
    local_port := c.local_port
    remote_addr := c.remote_addr
    remote_port := c.remote_port }

/-- Connection::is_outbound from src/types.rs lines 134-145. -/
def Connection.is_outbound (c : Connection) : Bool :=
  match c.remote_port with
  | some rp =>
      (rp == 80 || rp == 443 || rp == 22 || rp == 21 || rp == 25 || rp == 53
        || rp == 110 || rp == 143 || rp == 993 || rp == 995
        || rp == 587 || rp == 465 || rp == 8080 || rp == 8443
        || rp == 3306 || rp == 5432 || rp == 6379 || rp == 27017)
      || (decide (c.local_port > 1024) && decide (rp ≤ 1024))
      || decide (c.local_port > 49152)
  | none => false

-- ─── src/utils.rs ────────────────────────────────────────────────────────────

/-- ntohs from src/utils.rs: converts a raw 32-bit port field to a host u16
by swapping the low two bytes. The trailing mod 2^16 models the Rust
truncating cast from u32 to u16. -/
def ntohs (port : Nat) : Nat :=
  ((port &&& 0xFF) <<< 8 ||| (port >>> 8) &&& 0xFF) % 65536

-- ─── Claim C3: the ntohs test vectors ────────────────────────────────────────

/-- Claim C3 counterexample: the spec test vector ntohs(0x00500000) = 80 is
false on the code: the helper reads the port from the two low bytes of the
field, and 0x00500000 has both low bytes zero, so the result is 0. -/
theorem C3_ntohs_counterexample :
    ntohs 0x00500000 = 0 ∧ ¬ (ntohs 0x00500000 = 80) := by
  constructor
  · decide
  · decide

/-- Claim C3 amended: for a 32-bit kernel port field that holds the 16-bit
wire port in its two least-significant bytes in network order (low byte of
the field = high byte of the port), the helper swaps those two bytes:
ntohs(b1 + 256*b2 + 65536*junk) = 256*b1 + b2 for all byte values b1, b2 and
any junk in the upper half. In particular the correct test vectors are
ntohs(0x00005000) = 80 and ntohs(0x0000BB01) = 443. -/
theorem C3_ntohs_amended :
    ntohs 0x00005000 = 80 ∧ ntohs 0x0000BB01 = 443 ∧
    ∀ b1 b2 junk : Nat, b1 < 256 → b2 < 256 → junk < 65536 →
      ntohs (b1 + 256 * b2 + 65536 * junk) = 256 * b1 + b2 := by
  refine ⟨by decide, by decide, ?_⟩
  intro b1 b2 junk hb1 hb2 _
  unfold ntohs
  have hand : ∀ v : Nat, v &&& 0xFF = v % 256 := by
    intro v
    have h := Nat.and_pow_two_sub_one_eq_mod v 8
    norm_num at h
    exact h
  have hlow : (b1 + 256 * b2 + 65536 * junk) &&& 0xFF = b1 := by
    rw [hand]
    omega
  have hshift : (b1 + 256 * b2 + 65536 * junk) >>> 8 = b2 + 256 * junk := by
    rw [Nat.shiftRight_eq_div_pow]
    norm_num
    omega
  have hhigh : ((b1 + 256 * b2 + 65536 * junk) >>> 8) &&& 0xFF = b2 := by
    rw [hshift, hand]
    omega
  rw [hlow, hhigh]
  have hor : b1 <<< 8 ||| b2 = b1 * 256 + b2 := by
    apply Nat.eq_of_testBit_eq
    intro j
    rw [Nat.testBit_lor, Nat.testBit_shiftLeft]
    have h256 : b2 < 2 ^ 8 := hb2
    have hmul : b1 * 256 + b2 = 2 ^ 8 * b1 + b2 := by ring
    rw [hmul, Nat.testBit_mul_pow_two_add b1 h256 j]
    by_cases hj : j < 8
    · simp [hj, Nat.not_le.mpr hj]
    · have hb : b2.testBit j = false := by
        apply Nat.testBit_eq_false_of_lt
        calc b2 < 256 := hb2
          _ = 2 ^ 8 := by norm_num
          _ ≤ 2 ^ j := Nat.pow_le_pow_right (by norm_num) (Nat.not_lt.mp hj)
      simp [hj, Nat.not_lt.mp hj, hb]
  rw [hor]
  have : b1 * 256 + b2 < 65536 := by omega
  rw [Nat.mod_eq_of_lt this]
  omega

/-- Claim C3 amended witness: the byte-swap characterization applied at the
concrete field value 0x0000BB01 (b1 = 1, b2 = 0xBB, junk = 0). -/
theorem C3_ntohs_amended_witness :
    ntohs (1 + 256 * 187 + 65536 * 0) = 256 * 1 + 187 :=
  C3_ntohs_amended.2.2 1 187 0 (by decide) (by decide) (by decide)

-- ─── Claim C5: the outbound heuristic ────────────────────────────────────────

/-- Claim C5: Connection::is_outbound is true exactly when the connection has
a remote port and (the remote port is in the well-known set, or local_port
is above 1024 while the remote port is at most 1024, or local_port is above
49152); in particular it holds whenever local_port > 49152 and a remote port
exists, holds for every well-known remote port, and fails when there is no
remote port. -/
theorem C5_is_outbound :
    (∀ c : Connection,
      c.is_outbound = true ↔
        ∃ rp, c.remote_port = some rp ∧
          (rp ∈ [80, 443, 22, 21, 25, 53, 110, 143, 993, 995,
                 587, 465, 8080, 8443, 3306, 5432, 6379, 27017] ∨
           (c.local_port > 1024 ∧ rp ≤ 1024) ∨
           c.local_port > 49152)) ∧
    (∀ c : Connection, c.local_port > 49152 → c.remote_port.isSome →
      c.is_outbound = true) ∧
    (∀ c : Connection, ∀ rp,
      c.remote_port = some rp →
      rp ∈ [80, 443, 22, 21, 25, 53, 110, 143, 993, 995,
            587, 465, 8080, 8443, 3306, 5432, 6379, 27017] →
      c.is_outbound = true) ∧
    (∀ c : Connection, c.remote_port = none → c.is_outbound = false) := by
  refine ⟨?_, ?_, ?_, ?_⟩
  · intro c
    unfold Connection.is_outbound
    cases hrp : c.remote_port with
    | none =>
        simp
    | some rp =>
        simp only [Bool.or_eq_true, beq_iff_eq, Bool.and_eq_true,
          decide_eq_true_eq, List.mem_cons, List.not_mem_nil, or_false,
          Option.some.injEq]
        constructor
        · intro h
          exact ⟨rp, rfl, by omega⟩
        · rintro ⟨rp', hrp', h⟩
          omega
  · intro c hlp hrp
    unfold Connection.is_outbound
    cases h : c.remote_port with
    | none => rw [h] at hrp; simp at hrp
    | some rp =>
        simp only [Bool.or_eq_true, beq_iff_eq, Bool.and_eq_true,
          decide_eq_true_eq]
        omega
  · intro c rp hrp hmem
    unfold Connection.is_outbound
    rw [hrp]
    simp only [List.mem_cons, List.not_mem_nil, or_false] at hmem
    simp only [Bool.or_eq_true, beq_iff_eq, Bool.and_eq_true,
      decide_eq_true_eq]
    omega
  · intro c hrp
    unfold Connection.is_outbound
    rw [hrp]

/-- Claim C5 witness: the heuristic evaluated at the concrete example
connections (local 51000 to remote 443 is outbound; no remote port is not
outbound; local 60000 with remote 12345 is outbound via local_port > 49152). -/
theorem C5_is_outbound_witness :
    ({ proto := .tcp, local_addr := .v4 10 0 0 1, local_port := 51000,
       remote_addr := some (.v4 1 2 3 4), remote_port := some 443,
       state := some .established, pid := 7, process_name := "x",
       dns_hostname := none : Connection }).is_outbound = true ∧
    ({ proto := .udp, local_addr := .v4 10 0 0 1, local_port := 5353,
       remote_addr := none, remote_port := none,
       state := none, pid := 7, process_name := "x",
       dns_hostname := none : Connection }).is_outbound = false ∧
    ({ proto := .tcp, local_addr := .v4 10 0 0 1, local_port := 60000,
       remote_addr := some (.v4 1 2 3 4), remote_port := some 12345,
       state := some .established, pid := 7, process_name := "x",
       dns_hostname := none : Connection }).is_outbound = true := by
  refine ⟨?_, ?_, ?_⟩
  · exact C5_is_outbound.2.2.1 _ 443 rfl (by decide)
  · exact C5_is_outbound.2.2.2 _ rfl
  · exact C5_is_outbound.2.1 _ (by decide) (by decide)

-- ─── Association-list model of std HashMap ───────────────────────────────────

/-- Lookup in an association-list model of a Rust HashMap: returns the value
of the first entry with the given key. -/
def alookup {K V : Type} [DecidableEq K] (m : List (K × V)) (k : K) :
    Option V :=
  (m.find? (fun p => decide (p.1 = k))).map Prod.snd

/-- Insert in an association-list model of a Rust HashMap: any old entry for
the key is replaced. -/
def ainsert {K V : Type} [DecidableEq K] (m : List (K × V)) (k : K) (v : V) :
    List (K × V) :=
  m.filter (fun p => decide (p.1 ≠ k)) ++ [(k, v)]

-- ─── src/network/capture.rs ──────────────────────────────────────────────────

/-- DnsCache from src/types.rs: HashMap from IpAddr to Option String. -/
def DnsCacheL : Type := List (IpAddr × Option String)

/-- ConnInfo from src/network/capture.rs. -/
structure ConnInfo where
  state : Option TcpState
  process_name : String
  proto : ConnProto
  outbound : Bool
  dns_name : Option String
deriving DecidableEq, Repr

/-- TrafficEventKind from src/types.rs. -/
inductive TrafficEventKind
  | newConnection
  | connectionClosed
  | stateChange (from_ to_ : TcpState)
  | dataActivity (bytes : Nat) (inbound : Bool)
deriving DecidableEq, Repr

/-- TrafficEntry from src/types.rs; the NaiveTime timestamp is a Nat tick. -/
structure TrafficEntry where
  timestamp : Nat
  event : TrafficEventKind
  proto : ConnProto
  local_addr : IpAddr
  local_port : Nat
  remote_addr : Option IpAddr
  remote_port : Option Nat
  process_name : String
  outbound : Bool
  state_label : String
  dns_name : Option String
  data_size : Option Nat
deriving DecidableEq, Repr

/-- TrafficTracker from src/network/capture.rs. -/
structure TrafficTracker where
  prev_connections : List (ConnKey × ConnInfo)
  log : List TrafficEntry
  max_log_size : Nat
  auto_scroll : Bool
  scroll_offset : Nat
  filter_text : String
  paused : Bool
  conn_data : List (ConnKey × Nat)
  hide_localhost : Bool
deriving DecidableEq, Repr

/-- TrafficTracker::new from src/network/capture.rs lines 40-52. -/
def TrafficTracker.new (max_log_size : Nat) : TrafficTracker :=
  { prev_connections := []
    log := []
    max_log_size := max_log_size
    auto_scroll := true
    scroll_offset := 0
    filter_text := ""
    paused := false
    conn_data := []
    hide_localhost := true }

/-- Per-record skip condition of TrafficTracker::update (lines 65-72 and
91-96 of src/network/capture.rs): TCP records in LISTEN state and UDP
records with no remote address are left out of the diff. -/
def diffSkip (c : Connection) : Bool :=
  (match c.state with
   | some TcpState.listen => true
   | _ => false)
  || (c.proto == ConnProto.udp && c.remote_addr == none)

/-- DNS-name lookup performed per record inside TrafficTracker::update
(lines 77-78 of src/network/capture.rs): conn.remote_addr.and_then followed
by dns_cache.get(ip).cloned().flatten(). -/
def dnsLookup (dns : DnsCacheL) (remote : Option IpAddr) : Option String :=
  remote.bind (fun ip => (alookup dns ip).bind id)

/-- Construction of the current-tick map inside TrafficTracker::update
(lines 61-87 of src/network/capture.rs). -/
def buildCurrent (connections : List Connection) (dns : DnsCacheL) :
    List (ConnKey × ConnInfo) :=
  connections.foldl
    (fun cur conn =>
      if diffSkip conn then cur
      else
        ainsert cur conn.key
          { state := conn.state
            process_name := conn.process_name
            proto := conn.proto
            outbound := conn.is_outbound
            dns_name := dnsLookup dns conn.remote_addr })
    []

/-- Per-connection event of the second loop of TrafficTracker::update
(lines 90-143 of src/network/capture.rs): a NewConnection entry when the
key is absent from the previous map, a StateChange entry when both states
are present and differ, nothing otherwise. -/
def newStateEvent (prev : List (ConnKey × ConnInfo))
    (connData : List (ConnKey × Nat)) (dns : DnsCacheL) (now : Nat)
    (conn : Connection) : Option TrafficEntry :=
  if diffSkip conn then none
  else
    let key := conn.key
    let dnsName := dnsLookup dns conn.remote_addr
    match alookup prev key with
    | none =>
        some
          { timestamp := now
            event := .newConnection
            proto := conn.proto
            local_addr := conn.local_addr
            local_port := conn.local_port
            remote_addr := conn.remote_addr
            remote_port := conn.remote_port
            process_name := conn.process_name
            outbound := conn.is_outbound
            state_label := (conn.state.map TcpState.label).getD "-"
            dns_name := dnsName
            data_size := none }
    | some prevInfo =>
        match prevInfo.state, conn.state with
        | some ps, some cs =>
            if ps ≠ cs then
              some
                { timestamp := now
                  event := .stateChange ps cs
                  proto := conn.proto
                  local_addr := conn.local_addr
                  local_port := conn.local_port
                  remote_addr := conn.remote_addr
                  remote_port := conn.remote_port
                  process_name := conn.process_name
                  outbound := conn.is_outbound
                  state_label := cs.label
                  dns_name := dnsName
                  data_size := alookup connData key }
            else none
        | _, _ => none

/-- The list of NewConnection and StateChange entries produced by the second
loop of TrafficTracker::update, in connection order. -/
def newStateEvents (prev : List (ConnKey × ConnInfo))
    (connData : List (ConnKey × Nat)) (dns : DnsCacheL) (now : Nat)
    (connections : List Connection) : List TrafficEntry :=
  connections.filterMap (newStateEvent prev connData dns now)

/-- The ConnectionClosed entry built for one vanished key by
TrafficTracker::update (lines 148-165 of src/network/capture.rs). -/
def closedEntry (connData : List (ConnKey × Nat)) (now : Nat)
    (key : ConnKey) (info : ConnInfo) : TrafficEntry :=
  { timestamp := now
    event := .connectionClosed
    proto := info.proto
    local_addr := key.local_addr
    local_port := key.local_port
    remote_addr := key.remote_addr
    remote_port := key.remote_port
    process_name := info.process_name
    outbound := info.outbound
    state_label := (info.state.map TcpState.label).getD "CLOSED"
    dns_name := info.dns_name
    data_size := alookup connData key }

/-- The ConnectionClosed entries of TrafficTracker::update (lines 146-166
of src/network/capture.rs): previous keys absent from the current map. -/
def closedEvents (prev current : List (ConnKey × ConnInfo))
    (connData : List (ConnKey × Nat)) (now : Nat) : List TrafficEntry :=
  (prev.filter (fun p => decide (alookup current p.1 = none))).map
    (fun p => closedEntry connData now p.1 p.2)

/-- TrafficTracker::push_event from src/network/capture.rs lines 184-192. -/
def TrafficTracker.pushEvent (t : TrafficTracker) (entry : TrafficEntry) :
    TrafficTracker :=
  let log1 := t.log ++ [entry]
  let log2 :=
    if log1.length > t.max_log_size then
      log1.drop (log1.length - t.max_log_size)
    else log1
  { t with
    log := log2
    scroll_offset := if t.auto_scroll then log2.length else t.scroll_offset }

/-- The full event list of one TrafficTracker::update call, in the order the
code pushes them: NewConnection and StateChange entries first (in connection
order), then ConnectionClosed entries. -/
def updateEvents (t : TrafficTracker) (connections : List Connection)
    (dns : DnsCacheL) (now : Nat) : List TrafficEntry :=
  newStateEvents t.prev_connections t.conn_data dns now connections ++
    closedEvents t.prev_connections (buildCurrent connections dns)
      t.conn_data now

/-- TrafficTracker::update from src/network/capture.rs lines 55-182. -/
def TrafficTracker.update (t : TrafficTracker)
    (connections : List Connection) (dns : DnsCacheL) (now : Nat) :
    TrafficTracker :=
  if t.paused then t
  else
    let current := buildCurrent connections dns
    let evs := newStateEvents t.prev_connections t.conn_data dns now
      connections
    let closed := closedEvents t.prev_connections current t.conn_data now
    let closedKeys :=
      (t.prev_connections.filter
        (fun p => decide (alookup current p.1 = none))).map Prod.fst
    let t1 := evs.foldl TrafficTracker.pushEvent t
    let t2 := { t1 with
      conn_data := t1.conn_data.filter (fun p => decide (p.1 ∉ closedKeys)) }
    let t3 := closed.foldl TrafficTracker.pushEvent t2
    { t3 with prev_connections := current }

/-- TrafficTracker::clear from src/network/capture.rs lines 216-219. -/
def TrafficTracker.clear (t : TrafficTracker) : TrafficTracker :=
  { t with log := [], scroll_offset := 0 }

/-- Verification helper: the ConnKey reconstructed from the endpoint fields
of a traffic entry. -/
def entryKey (e : TrafficEntry) : ConnKey :=
  { proto := e.proto
    local_addr := e.local_addr
    local_port := e.local_port
    remote_addr := e.remote_addr
    remote_port := e.remote_port }

/-- Verification helper: in any map produced by buildCurrent the stored info
carries the same protocol as its key; trackers whose previous map came from
buildCurrent satisfy this. -/
def wfProto (t : TrafficTracker) : Prop :=
  ∀ p ∈ t.prev_connections, p.2.proto = p.1.proto

-- ─── Association-list lemmas ─────────────────────────────────────────────────

theorem find?_filter_of_imp {α : Type} (l : List α) (p q : α → Bool)
    (h : ∀ x, p x = true → q x = true) :
    (l.filter q).find? p = l.find? p := by
  induction l with
  | nil => rfl
  | cons a t ih =>
      by_cases hp : p a
      · have hq : q a = true := h a hp
        simp [List.filter_cons, hq, List.find?_cons, hp, ih]
      · by_cases hq : q a
        · simp [List.filter_cons, hq, List.find?_cons, hp, ih]
        · simp only [List.filter_cons, hq, if_neg]
          rw [List.find?_cons_of_neg _ (by simp [hp])]
          simpa [hq] using ih

theorem alookup_ainsert {K V : Type} [DecidableEq K]
    (m : List (K × V)) (k' k : K) (v : V) :
    alookup (ainsert m k' v) k = if k = k' then some v else alookup m k := by
  unfold alookup ainsert
  rw [List.find?_append]
  by_cases hk : k = k'
  · subst hk
    have hnone : (m.filter (fun p => decide (p.1 ≠ k))).find?
        (fun p => decide (p.1 = k)) = none := by
      rw [List.find?_eq_none]
      intro x hx
      have := List.of_mem_filter hx
      simp only [decide_eq_true_eq] at this ⊢
      exact this
    simp [hnone]
  · have heq : (m.filter (fun p => decide (p.1 ≠ k'))).find?
        (fun p => decide (p.1 = k)) = m.find? (fun p => decide (p.1 = k)) := by
      apply find?_filter_of_imp
      intro x hx
      simp only [decide_eq_true_eq] at hx ⊢
      rw [hx]
      exact hk
    rw [heq]
    have hsingle : (([(k', v)] : List (K × V)).find?
        (fun p => decide (p.1 = k))) = none := by
      rw [List.find?_eq_none]
      intro x hx
      simp only [List.mem_singleton] at hx
      subst hx
      simp only [decide_eq_true_eq]
      exact fun h => hk h.symm
    cases hf : m.find? (fun p => decide (p.1 = k)) with
    | none => simp [hf, hsingle, hk]
    | some p => simp [hf, hk]

theorem alookup_eq_some_of_mem {K V : Type} [DecidableEq K]
    (m : List (K × V)) (k : K) (v : V)
    (hnd : (m.map Prod.fst).Nodup) (hmem : (k, v) ∈ m) :
    alookup m k = some v := by
  induction m with
  | nil => cases hmem
  | cons a t ih =>
      simp only [List.map_cons, List.nodup_cons] at hnd
      rcases List.mem_cons.mp hmem with h | h
      · subst h
        unfold alookup
        rw [List.find?_cons_of_pos _ (by simp)]
        rfl
      · have hka : k ≠ a.1 := by
          intro hcontra
          exact hnd.1 (hcontra ▸ (List.mem_map.mpr ⟨(k, v), h, rfl⟩))
        unfold alookup
        rw [List.find?_cons_of_neg _ (by simpa using Ne.symm hka)]
        exact ih hnd.2 h

theorem alookup_isSome_iff_mem_keys {K V : Type} [DecidableEq K]
    (m : List (K × V)) (k : K) :
    (alookup m k).isSome = true ↔ k ∈ m.map Prod.fst := by
  unfold alookup
  induction m with
  | nil => simp
  | cons a t ih =>
      by_cases hk : a.1 = k
      · rw [List.find?_cons_of_pos _ (by simp [hk])]
        simp [hk]
      · rw [List.find?_cons_of_neg _ (by simp [hk])]
        simp only [List.map_cons, List.mem_cons]
        rw [ih]
        constructor
        · intro h; right; exact h
        · rintro (h | h)
          · exact absurd h.symm hk
          · exact h

-- ─── Characterization of buildCurrent ────────────────────────────────────────

theorem buildCurrent_go_lookup_none (dns : DnsCacheL) (k : ConnKey) :
    ∀ (conns : List Connection) (acc : List (ConnKey × ConnInfo)),
    alookup
      (conns.foldl
        (fun cur conn =>
          if diffSkip conn then cur
          else
            ainsert cur conn.key
              { state := conn.state
                process_name := conn.process_name
                proto := conn.proto
                outbound := conn.is_outbound
                dns_name := dnsLookup dns conn.remote_addr })
        acc) k = none ↔
      alookup acc k = none ∧
        ∀ c ∈ conns, diffSkip c = true ∨ c.key ≠ k := by
  intro conns
  induction conns with
  | nil => simp
  | cons a t ih =>
      intro acc
      simp only [List.foldl_cons]
      by_cases hs : diffSkip a
      · rw [if_pos hs]
        rw [ih acc]
        constructor
        · rintro ⟨h1, h2⟩
          exact ⟨h1, fun c hc => by
            rcases List.mem_cons.mp hc with h | h
            · subst h; left; exact hs
            · exact h2 c h⟩
        · rintro ⟨h1, h2⟩
          exact ⟨h1, fun c hc => h2 c (List.mem_cons_of_mem _ hc)⟩
      · rw [if_neg hs]
        rw [ih _]
        rw [alookup_ainsert]
        by_cases hk : k = a.key
        · rw [if_pos hk]
          simp only [reduceCtorEq, false_and, false_iff, not_and, not_forall]
          intro _
          exact ⟨a, List.mem_cons_self a t, by
            simp [hs, hk.symm]⟩
        · rw [if_neg hk]
          constructor
          · rintro ⟨h1, h2⟩
            refine ⟨h1, fun c hc => ?_⟩
            rcases List.mem_cons.mp hc with h | h
            · subst h; right; exact fun hcontra => hk hcontra.symm
            · exact h2 c h
          · rintro ⟨h1, h2⟩
            exact ⟨h1, fun c hc => h2 c (List.mem_cons_of_mem _ hc)⟩

theorem buildCurrent_lookup_none (conns : List Connection) (dns : DnsCacheL)
    (k : ConnKey) :
    alookup (buildCurrent conns dns) k = none ↔
      ∀ c ∈ conns, diffSkip c = true ∨ c.key ≠ k := by
  unfold buildCurrent
  rw [buildCurrent_go_lookup_none dns k conns []]
  simp [alookup]

-- ─── push_event lemmas ───────────────────────────────────────────────────────

theorem pushEvent_log_length (t : TrafficTracker) (e : TrafficEntry) :
    (t.pushEvent e).log.length ≤ t.max_log_size := by
  unfold TrafficTracker.pushEvent
  by_cases h : (t.log ++ [e]).length > t.max_log_size
  · simp only [h, if_pos]
    rw [List.length_drop]
    omega
  · simp only [h, if_neg, not_false_iff]
    omega

theorem pushEvent_max (t : TrafficTracker) (e : TrafficEntry) :
    (t.pushEvent e).max_log_size = t.max_log_size := rfl

theorem pushEvent_prev (t : TrafficTracker) (e : TrafficEntry) :
    (t.pushEvent e).prev_connections = t.prev_connections := rfl

theorem pushEvent_conn_data (t : TrafficTracker) (e : TrafficEntry) :
    (t.pushEvent e).conn_data = t.conn_data := rfl

theorem pushEvent_paused (t : TrafficTracker) (e : TrafficEntry) :
    (t.pushEvent e).paused = t.paused := rfl

theorem pushEvent_auto_scroll (t : TrafficTracker) (e : TrafficEntry) :
    (t.pushEvent e).auto_scroll = t.auto_scroll := rfl

theorem pushEvent_log_suffix (t : TrafficTracker) (e : TrafficEntry) :
    (t.pushEvent e).log.IsSuffix (t.log ++ [e]) := by
  unfold TrafficTracker.pushEvent
  by_cases h : (t.log ++ [e]).length > t.max_log_size
  · simp only [h, if_pos]
    exact List.drop_suffix _ _
  · simp only [h, if_neg, not_false_iff]
    exact List.suffix_refl _

theorem pushEvent_getLast (t : TrafficTracker) (e : TrafficEntry)
    (h : 1 ≤ t.max_log_size) :
    (t.pushEvent e).log.getLast? = some e := by
  unfold TrafficTracker.pushEvent
  by_cases hlen : (t.log ++ [e]).length > t.max_log_size
  · simp only [hlen, if_pos]
    have hle : (t.log ++ [e]).length - t.max_log_size ≤ t.log.length := by
      rw [List.length_append]
      simp only [List.length_cons, List.length_nil]
      omega
    rw [List.drop_append_of_le_length hle]
    exact List.getLast?_concat _
  · simp only [hlen, if_neg, not_false_iff]
    exact List.getLast?_concat _

-- ─── foldl push_event lemmas ─────────────────────────────────────────────────

theorem foldl_pushEvent_max (l : List TrafficEntry) :
    ∀ t : TrafficTracker,
    (l.foldl TrafficTracker.pushEvent t).max_log_size = t.max_log_size := by
  induction l with
  | nil => intro t; rfl
  | cons a tl ih => intro t; rw [List.foldl_cons, ih, pushEvent_max]

theorem foldl_pushEvent_prev (l : List TrafficEntry) :
    ∀ t : TrafficTracker,
    (l.foldl TrafficTracker.pushEvent t).prev_connections =
      t.prev_connections := by
  induction l with
  | nil => intro t; rfl
  | cons a tl ih => intro t; rw [List.foldl_cons, ih, pushEvent_prev]

theorem foldl_pushEvent_conn_data (l : List TrafficEntry) :
    ∀ t : TrafficTracker,
    (l.foldl TrafficTracker.pushEvent t).conn_data = t.conn_data := by
  induction l with
  | nil => intro t; rfl
  | cons a tl ih => intro t; rw [List.foldl_cons, ih, pushEvent_conn_data]

theorem foldl_pushEvent_paused (l : List TrafficEntry) :
    ∀ t : TrafficTracker,
    (l.foldl TrafficTracker.pushEvent t).paused = t.paused := by
  induction l with
  | nil => intro t; rfl
  | cons a tl ih => intro t; rw [List.foldl_cons, ih, pushEvent_paused]

theorem foldl_pushEvent_length (l : List TrafficEntry) :
    ∀ t : TrafficTracker, t.log.length ≤ t.max_log_size →
    (l.foldl TrafficTracker.pushEvent t).log.length ≤ t.max_log_size := by
  induction l with
  | nil => intro t h; exact h
  | cons a tl ih =>
      intro t h
      rw [List.foldl_cons]
      have h2 := ih (t.pushEvent a)
      rw [pushEvent_max] at h2
      exact h2 (pushEvent_log_length t a)

theorem foldl_pushEvent_mem (l : List TrafficEntry) :
    ∀ (t : TrafficTracker) (e : TrafficEntry),
    e ∈ (l.foldl TrafficTracker.pushEvent t).log → e ∈ t.log ∨ e ∈ l := by
  induction l with
  | nil => intro t e h; left; exact h
  | cons a tl ih =>
      intro t e h
      rcases ih (t.pushEvent a) e h with h' | h'
      · have hsub := (pushEvent_log_suffix t a).subset h'
        rcases List.mem_append.mp hsub with h'' | h''
        · left; exact h''
        · right
          simp only [List.mem_singleton] at h''
          subst h''
          exact List.mem_cons_self _ _
      · right; exact List.mem_cons_of_mem _ h'

-- ─── Claim C4: the bounded traffic log ───────────────────────────────────────

/-- Claim C4: push_event keeps the log at no more than max_log_size entries,
removes entries only from the oldest end (the resulting log is a suffix of
the old log with the new entry appended), and, whenever the bound is
positive, the newly appended entry is never the one removed (it is the last
entry of the resulting log); consequently every update call keeps a log that
was within the bound within the bound. -/
theorem C4_push_event_bound :
    (∀ (t : TrafficTracker) (e : TrafficEntry),
      (t.pushEvent e).log.length ≤ t.max_log_size) ∧
    (∀ (t : TrafficTracker) (e : TrafficEntry),
      (t.pushEvent e).log.IsSuffix (t.log ++ [e])) ∧
    (∀ (t : TrafficTracker) (e : TrafficEntry), 1 ≤ t.max_log_size →
      (t.pushEvent e).log.getLast? = some e) ∧
    (∀ (t : TrafficTracker) (connections : List Connection)
        (dns : DnsCacheL) (now : Nat),
      t.log.length ≤ t.max_log_size →
      (t.update connections dns now).log.length ≤ t.max_log_size) := by
  refine ⟨pushEvent_log_length, pushEvent_log_suffix, pushEvent_getLast, ?_⟩
  intro t connections dns now h
  unfold TrafficTracker.update
  by_cases hp : t.paused
  · simp only [hp, if_pos]
    exact h
  · simp only [hp, if_neg, not_false_iff]
    set t1 := (newStateEvents t.prev_connections t.conn_data dns now
      connections).foldl TrafficTracker.pushEvent t with ht1
    have h1 : t1.log.length ≤ t.max_log_size := foldl_pushEvent_length _ t h
    have hmax1 : t1.max_log_size = t.max_log_size := foldl_pushEvent_max _ t
    set t2 : TrafficTracker := { t1 with
      conn_data := t1.conn_data.filter
        (fun p => decide (p.1 ∉ (t.prev_connections.filter
          (fun q => decide (alookup (buildCurrent connections dns) q.1 =
            none))).map Prod.fst)) } with ht2
    have h2 : t2.log.length ≤ t2.max_log_size := by
      show t1.log.length ≤ t1.max_log_size
      rw [hmax1]
      exact h1
    have h3 := foldl_pushEvent_length
      (closedEvents t.prev_connections (buildCurrent connections dns)
        t.conn_data now) t2 h2
    have hmax2 : t2.max_log_size = t.max_log_size := hmax1
    rw [hmax2] at h3
    exact h3

/-- Claim C4 witness: pushing one entry onto a full one-slot log keeps the
length at one, drops only the head, and keeps the new entry as the tail. -/
theorem C4_push_event_bound_witness :
    (((TrafficTracker.new 1).pushEvent
        { timestamp := 1, event := .newConnection, proto := .tcp,
          local_addr := .v4 10 0 0 1, local_port := 1, remote_addr := none,
          remote_port := none, process_name := "a", outbound := false,
          state_label := "-", dns_name := none, data_size := none }).log.length
      ≤ (TrafficTracker.new 1).max_log_size) ∧
    (((TrafficTracker.new 1).pushEvent
        { timestamp := 1, event := .newConnection, proto := .tcp,
          local_addr := .v4 10 0 0 1, local_port := 1, remote_addr := none,
          remote_port := none, process_name := "a", outbound := false,
          state_label := "-", dns_name := none, data_size := none }).log.getLast?
      = some
        { timestamp := 1, event := .newConnection, proto := .tcp,
          local_addr := .v4 10 0 0 1, local_port := 1, remote_addr := none,
          remote_port := none, process_name := "a", outbound := false,
          state_label := "-", dns_name := none, data_size := none }) ∧
    (((TrafficTracker.new 1).update [] [] 0).log.length
      ≤ (TrafficTracker.new 1).max_log_size) := by
  refine ⟨C4_push_event_bound.1 _ _, ?_, ?_⟩
  · exact C4_push_event_bound.2.2.1 _ _ (by decide)
  · exact C4_push_event_bound.2.2.2 _ [] [] 0 (by decide)

-- ─── Event predicates ────────────────────────────────────────────────────────

/-- Verification helper: a traffic entry is a NewConnection event for key k. -/
def isNewFor (k : ConnKey) (e : TrafficEntry) : Bool :=
  decide (entryKey e = k) && decide (e.event = .newConnection)

/-- Verification helper: a traffic entry is a ConnectionClosed event for
key k. -/
def isClosedFor (k : ConnKey) (e : TrafficEntry) : Bool :=
  decide (entryKey e = k) && decide (e.event = .connectionClosed)

/-- Verification helper: a traffic entry concerns key k (any event kind). -/
def isEventFor (k : ConnKey) (e : TrafficEntry) : Bool :=
  decide (entryKey e = k)

-- ─── newStateEvent characterization ──────────────────────────────────────────

theorem newStateEvent_some {prev : List (ConnKey × ConnInfo)}
    {cd : List (ConnKey × Nat)} {dns : DnsCacheL} {now : Nat}
    {c : Connection} {e : TrafficEntry}
    (h : newStateEvent prev cd dns now c = some e) :
    diffSkip c = false ∧ entryKey e = c.key ∧ e.timestamp = now ∧
    ((alookup prev c.key = none ∧ e.event = .newConnection) ∨
     (∃ info ps cs, alookup prev c.key = some info ∧
        info.state = some ps ∧ c.state = some cs ∧ ps ≠ cs ∧
        e.event = .stateChange ps cs)) := by
  unfold newStateEvent at h
  split at h
  · cases h
  next hs =>
    simp only at h
    split at h
    next hl =>
      injection h with he
      subst he
      exact ⟨by simpa using hs, rfl, rfl, Or.inl ⟨hl, rfl⟩⟩
    next info hl =>
      split at h
      next ps cs hps hcs =>
        split at h
        next hne =>
          injection h with he
          subst he
          exact ⟨by simpa using hs, rfl, rfl,
            Or.inr ⟨info, ps, cs, hl, hps, hcs, hne, rfl⟩⟩
        next => cases h
      next => cases h

theorem newStateEvent_new {prev : List (ConnKey × ConnInfo)}
    {cd : List (ConnKey × Nat)} {dns : DnsCacheL} {now : Nat}
    {c : Connection}
    (hs : diffSkip c = false) (hl : alookup prev c.key = none) :
    ∃ e, newStateEvent prev cd dns now c = some e ∧
      e.event = .newConnection ∧ entryKey e = c.key ∧ e.timestamp = now := by
  have hmain : newStateEvent prev cd dns now c =
      some { timestamp := now, event := .newConnection, proto := c.proto,
             local_addr := c.local_addr, local_port := c.local_port,
             remote_addr := c.remote_addr, remote_port := c.remote_port,
             process_name := c.process_name, outbound := c.is_outbound,
             state_label := (c.state.map TcpState.label).getD "-",
             dns_name := dnsLookup dns c.remote_addr, data_size := none } := by
    unfold newStateEvent
    rw [if_neg (by simp [hs])]
    dsimp only
    rw [hl]
  exact ⟨_, hmain, rfl, rfl, rfl⟩

theorem newStateEvent_none_of_same_state {prev : List (ConnKey × ConnInfo)}
    {cd : List (ConnKey × Nat)} {dns : DnsCacheL} {now : Nat}
    {c : Connection} {info : ConnInfo}
    (hl : alookup prev c.key = some info) (hst : info.state = c.state) :
    newStateEvent prev cd dns now c = none := by
  unfold newStateEvent
  split
  · rfl
  next hs =>
    simp only
    split
    next hl' => rw [hl'] at hl; cases hl
    next info hl' =>
      rw [hl'] at hl
      injection hl with hinfo
      subst hinfo
      split
      next ps cs hps hcs =>
        rw [hps, hcs] at hst
        injection hst with hpc
        rw [if_neg (by simp [hpc])]
      next => rfl

-- ─── Counting lemmas ─────────────────────────────────────────────────────────

theorem countP_isNewFor_newStateEvents (prev : List (ConnKey × ConnInfo))
    (cd : List (ConnKey × Nat)) (dns : DnsCacheL) (now : Nat) (k : ConnKey)
    (conns : List Connection) :
    (newStateEvents prev cd dns now conns).countP (isNewFor k) =
      conns.countP (fun c => !diffSkip c && decide (c.key = k) &&
        decide (alookup prev k = none)) := by
  induction conns with
  | nil => rfl
  | cons c cs ih =>
      unfold newStateEvents at ih ⊢
      rw [List.filterMap_cons, List.countP_cons]
      cases hfc : newStateEvent prev cd dns now c with
      | none =>
          rw [ih]
          have hpred : (!diffSkip c && decide (c.key = k) &&
              decide (alookup prev k = none)) = false := by
            by_cases hsk : diffSkip c
            · simp [hsk]
            · by_cases hkey : c.key = k
              · by_cases hlk : alookup prev k = none
                · exfalso
                  obtain ⟨e, he, -⟩ := @newStateEvent_new prev cd dns now c
                    (by simpa using hsk) (hkey ▸ hlk)
                  rw [hfc] at he
                  cases he
                · simp [hlk]
              · simp [hkey]
          rw [hpred]
          simp
      | some e =>
          rw [List.countP_cons, ih]
          obtain ⟨hsk, hek, -, hcase⟩ := newStateEvent_some hfc
          rcases hcase with ⟨hl, hev⟩ | ⟨info, ps, cs', hl, -, -, -, hev⟩
          · by_cases hkey : c.key = k
            · have h1 : isNewFor k e = true := by
                unfold isNewFor
                rw [hek, hkey, hev]
                simp
              have h2 : (!diffSkip c && decide (c.key = k) &&
                  decide (alookup prev k = none)) = true := by
                rw [hsk, hkey]
                rw [hkey] at hl
                simp [hl]
              rw [h1, h2]
            · have h1 : isNewFor k e = false := by
                unfold isNewFor
                rw [hek]
                simp [hkey]
              have h2 : (!diffSkip c && decide (c.key = k) &&
                  decide (alookup prev k = none)) = false := by
                simp [hkey]
              rw [h1, h2]
          · have h1 : isNewFor k e = false := by
              unfold isNewFor
              rw [hev]
              simp
            have h2 : (!diffSkip c && decide (c.key = k) &&
                decide (alookup prev k = none)) = false := by
              by_cases hkey : c.key = k
              · rw [hkey] at hl
                simp [hl]
              · simp [hkey]
            rw [h1, h2]

theorem countP_isNewFor_closedEvents (prev current : List (ConnKey × ConnInfo))
    (cd : List (ConnKey × Nat)) (now : Nat) (k : ConnKey) :
    (closedEvents prev current cd now).countP (isNewFor k) = 0 := by
  rw [List.countP_eq_zero]
  intro e he
  unfold closedEvents at he
  obtain ⟨p, -, hpe⟩ := List.mem_map.mp he
  unfold isNewFor
  rw [← hpe]
  simp [closedEntry]

theorem countP_isClosedFor_newStateEvents (prev : List (ConnKey × ConnInfo))
    (cd : List (ConnKey × Nat)) (dns : DnsCacheL) (now : Nat) (k : ConnKey)
    (conns : List Connection) :
    (newStateEvents prev cd dns now conns).countP (isClosedFor k) = 0 := by
  rw [List.countP_eq_zero]
  intro e he
  unfold newStateEvents at he
  obtain ⟨c, -, hce⟩ := List.mem_filterMap.mp he
  obtain ⟨-, -, -, hcase⟩ := newStateEvent_some hce
  unfold isClosedFor
  rcases hcase with ⟨-, hev⟩ | ⟨info, ps, cs2, h1, h2, h3, h4, hev⟩
  · rw [hev]; simp
  · rw [hev]; simp

theorem countP_isClosedFor_closedEvents
    (prev current : List (ConnKey × ConnInfo)) (cd : List (ConnKey × Nat))
    (now : Nat) (k : ConnKey)
    (hwf : ∀ p ∈ prev, p.2.proto = p.1.proto) :
    (closedEvents prev current cd now).countP (isClosedFor k) =
      prev.countP (fun p => decide (alookup current p.1 = none) &&
        decide (p.1 = k)) := by
  unfold closedEvents
  rw [List.countP_map, List.countP_filter]
  apply List.countP_congr
  intro p hp
  have hproto := hwf p hp
  have hkey : entryKey (closedEntry cd now p.1 p.2) = p.1 := by
    unfold entryKey closedEntry
    simp only
    rw [hproto]
  have hb : (isClosedFor k (closedEntry cd now p.1 p.2) &&
      decide (alookup current p.1 = none)) =
    (decide (alookup current p.1 = none) && decide (p.1 = k)) := by
    unfold isClosedFor
    rw [hkey]
    have hev : (closedEntry cd now p.1 p.2).event = .connectionClosed := rfl
    rw [hev]
    simp only [decide_eq_true_eq]
    by_cases h1 : p.1 = k <;> by_cases h2 : alookup current p.1 = none <;>
      simp [h1, h2]
  simp only [Function.comp_apply]
  rw [hb]

-- ─── Count-to-one and count-to-zero lemmas ───────────────────────────────────

theorem countP_conns_key_eq_one {conns : List Connection} {c : Connection}
    {k : ConnKey}
    (hnd : ((conns.filter (fun x => !diffSkip x)).map Connection.key).Nodup)
    (hc : c ∈ conns) (hsk : diffSkip c = false) (hk : c.key = k) :
    conns.countP (fun x => !diffSkip x && decide (x.key = k)) = 1 := by
  have hstep1 : conns.countP (fun x => !diffSkip x && decide (x.key = k)) =
      (conns.filter (fun x => !diffSkip x)).countP
        (fun x => decide (x.key = k)) := by
    rw [List.countP_filter]
    apply List.countP_congr
    intro x _
    rw [Bool.and_comm]
  rw [hstep1]
  have hstep2 : (conns.filter (fun x => !diffSkip x)).countP
      (fun x => decide (x.key = k)) =
      ((conns.filter (fun x => !diffSkip x)).map Connection.key).count k := by
    rw [List.count_eq_countP, List.countP_map]
    apply List.countP_congr
    intro x _
    simp [Function.comp]
  rw [hstep2]
  apply List.count_eq_one_of_mem hnd
  apply List.mem_map.mpr
  exact ⟨c, List.mem_filter.mpr ⟨hc, by simp [hsk]⟩, hk⟩

theorem countP_prev_key_eq_one {prev : List (ConnKey × ConnInfo)}
    {k : ConnKey} {info : ConnInfo}
    {current : List (ConnKey × ConnInfo)}
    (hnd : (prev.map Prod.fst).Nodup) (hmem : (k, info) ∈ prev)
    (hcur : alookup current k = none) :
    prev.countP (fun p => decide (alookup current p.1 = none) &&
      decide (p.1 = k)) = 1 := by
  have hstep1 : prev.countP (fun p => decide (alookup current p.1 = none) &&
      decide (p.1 = k)) = prev.countP (fun p => decide (p.1 = k)) := by
    apply List.countP_congr
    intro p _
    by_cases hpk : p.1 = k
    · rw [hpk]
      simp [hcur]
    · simp [hpk]
  rw [hstep1]
  have hstep2 : prev.countP (fun p => decide (p.1 = k)) =
      (prev.map Prod.fst).count k := by
    rw [List.count_eq_countP, List.countP_map]
    apply List.countP_congr
    intro p _
    simp [Function.comp]
  rw [hstep2]
  apply List.count_eq_one_of_mem hnd
  exact List.mem_map.mpr ⟨(k, info), hmem, rfl⟩

theorem countP_isEventFor_newStateEvents_zero
    {prev : List (ConnKey × ConnInfo)} {cd : List (ConnKey × Nat)}
    {dns : DnsCacheL} {now : Nat} {k : ConnKey} {conns : List Connection}
    (h : ∀ c ∈ conns, diffSkip c = false → c.key = k →
      newStateEvent prev cd dns now c = none) :
    (newStateEvents prev cd dns now conns).countP (isEventFor k) = 0 := by
  rw [List.countP_eq_zero]
  intro e he
  obtain ⟨c, hcm, hce⟩ := List.mem_filterMap.mp he
  obtain ⟨hsk, hek, -, -⟩ := newStateEvent_some hce
  unfold isEventFor
  simp only [decide_eq_true_eq]
  intro hekk
  have hkey : c.key = k := by rw [← hek, hekk]
  rw [h c hcm hsk hkey] at hce
  cases hce

theorem countP_isEventFor_closedEvents_zero
    {prev current : List (ConnKey × ConnInfo)} {cd : List (ConnKey × Nat)}
    {now : Nat} {k : ConnKey}
    (hwf : ∀ p ∈ prev, p.2.proto = p.1.proto)
    (hcur : ¬ alookup current k = none) :
    (closedEvents prev current cd now).countP (isEventFor k) = 0 := by
  rw [List.countP_eq_zero]
  intro e he
  unfold closedEvents at he
  obtain ⟨p, hpm, hpe⟩ := List.mem_map.mp he
  have hpf := List.mem_filter.mp hpm
  have hproto := hwf p hpf.1
  have hkey : entryKey (closedEntry cd now p.1 p.2) = p.1 := by
    unfold entryKey closedEntry
    simp only
    rw [hproto]
  unfold isEventFor
  rw [← hpe, hkey]
  simp only [decide_eq_true_eq]
  intro hpk
  apply hcur
  rw [← hpk]
  simpa using hpf.2

-- ─── No-trim log lemmas ──────────────────────────────────────────────────────

theorem pushEvent_log_no_trim (t : TrafficTracker) (e : TrafficEntry)
    (h : (t.log ++ [e]).length ≤ t.max_log_size) :
    (t.pushEvent e).log = t.log ++ [e] := by
  simp only [TrafficTracker.pushEvent]
  rw [if_neg (by omega)]

theorem foldl_pushEvent_log_no_trim (l : List TrafficEntry) :
    ∀ t : TrafficTracker, (t.log ++ l).length ≤ t.max_log_size →
    (l.foldl TrafficTracker.pushEvent t).log = t.log ++ l := by
  induction l with
  | nil => intro t h; simp
  | cons a tl ih =>
      intro t h
      rw [List.foldl_cons]
      have hlen : (t.log ++ [a]).length ≤ t.max_log_size := by
        simp only [List.length_append, List.length_cons, List.length_nil] at h ⊢
        omega
      have hstep := pushEvent_log_no_trim t a hlen
      have hmax := pushEvent_max t a
      have ihlen : ((t.pushEvent a).log ++ tl).length ≤
          (t.pushEvent a).max_log_size := by
        rw [hstep, hmax]
        simp only [List.length_append, List.length_cons, List.length_nil] at h ⊢
        omega
      rw [ih (t.pushEvent a) ihlen, hstep]
      simp

theorem update_log_no_trim (t : TrafficTracker) (connections : List Connection)
    (dns : DnsCacheL) (now : Nat)
    (hp : t.paused = false)
    (hlen : t.log.length + (updateEvents t connections dns now).length ≤
      t.max_log_size) :
    (t.update connections dns now).log =
      t.log ++ updateEvents t connections dns now := by
  unfold TrafficTracker.update
  rw [if_neg (by simp [hp])]
  simp only
  set evs := newStateEvents t.prev_connections t.conn_data dns now connections
    with hevs
  set closed := closedEvents t.prev_connections (buildCurrent connections dns)
    t.conn_data now with hclosed
  have hue : updateEvents t connections dns now = evs ++ closed := rfl
  rw [hue] at hlen
  simp only [List.length_append] at hlen
  have h1 : ((t.log ++ evs).length ≤ t.max_log_size) := by
    simp only [List.length_append]
    omega
  have hlog1 := foldl_pushEvent_log_no_trim evs t h1
  have hmax1 := foldl_pushEvent_max evs t
  set t1 := evs.foldl TrafficTracker.pushEvent t with ht1
  set t2 : TrafficTracker := { t1 with
    conn_data := t1.conn_data.filter
      (fun p => decide (p.1 ∉ (t.prev_connections.filter
        (fun q => decide (alookup (buildCurrent connections dns) q.1 =
          none))).map Prod.fst)) } with ht2
  have h2 : (t2.log ++ closed).length ≤ t2.max_log_size := by
    show (t1.log ++ closed).length ≤ t1.max_log_size
    rw [hlog1, hmax1]
    simp only [List.length_append]
    omega
  have hlog2 := foldl_pushEvent_log_no_trim closed t2 h2
  show (closed.foldl TrafficTracker.pushEvent t2).log =
    t.log ++ (evs ++ closed)
  rw [hlog2]
  show t1.log ++ closed = t.log ++ (evs ++ closed)
  rw [hlog1]
  simp

-- ─── Claim C1: the snapshot diff produces the right lifecycle events ─────────

/-- Concrete connection used by the end-to-end scenarios: the TCP
connection 10.0.0.1:55123 to 142.250.80.46:443, ESTABLISHED, pid 1000,
process chrome.exe. -/
def chromeConn : Connection :=
  { proto := .tcp
    local_addr := .v4 10 0 0 1
    local_port := 55123
    remote_addr := some (.v4 142 250 80 46)
    remote_port := some 443
    state := some .established
    pid := 1000
    process_name := "chrome.exe"
    dns_hostname := none }

/-- Claim C1: in an unpaused update, when no trimming occurs the log grows by
exactly the diff events; a tracked (non-skipped) connection whose key is
absent from the previous snapshot map produces exactly one NewConnection
event for its key; a key present in both snapshots with unchanged TCP state
produces no event at all for that key; a key present in the previous
snapshot but absent from the current one produces exactly one
ConnectionClosed event; and the spec scenario (present, present with same
state, absent over ticks 1, 2, 3) yields exactly the log
[NewConnection at tick 1, ConnectionClosed at tick 3]. -/
theorem C1_update_lifecycle_events :
    (∀ (t : TrafficTracker) (connections : List Connection) (dns : DnsCacheL)
        (now : Nat),
      t.paused = false →
      t.log.length + (updateEvents t connections dns now).length ≤
        t.max_log_size →
      (t.update connections dns now).log =
        t.log ++ updateEvents t connections dns now) ∧
    (∀ (t : TrafficTracker) (connections : List Connection) (dns : DnsCacheL)
        (now : Nat) (c : Connection),
      c ∈ connections → diffSkip c = false →
      alookup t.prev_connections c.key = none →
      ((connections.filter (fun x => !diffSkip x)).map Connection.key).Nodup →
      (updateEvents t connections dns now).countP (isNewFor c.key) = 1) ∧
    (∀ (t : TrafficTracker) (connections : List Connection) (dns : DnsCacheL)
        (now : Nat) (c : Connection) (info : ConnInfo),
      c ∈ connections → diffSkip c = false →
      alookup t.prev_connections c.key = some info →
      info.state = c.state →
      ((connections.filter (fun x => !diffSkip x)).map Connection.key).Nodup →
      (∀ p ∈ t.prev_connections, p.2.proto = p.1.proto) →
      (updateEvents t connections dns now).countP (isEventFor c.key) = 0) ∧
    (∀ (t : TrafficTracker) (connections : List Connection) (dns : DnsCacheL)
        (now : Nat) (k : ConnKey) (info : ConnInfo),
      (k, info) ∈ t.prev_connections →
      (t.prev_connections.map Prod.fst).Nodup →
      (∀ p ∈ t.prev_connections, p.2.proto = p.1.proto) →
      (∀ c ∈ connections, diffSkip c = false → c.key ≠ k) →
      (updateEvents t connections dns now).countP (isClosedFor k) = 1) ∧
    (((((TrafficTracker.new 5000).update [chromeConn] [] 1).update
        [chromeConn] [] 2).update [] [] 3).log.map
          (fun e => (e.timestamp, e.event)) =
      [(1, TrafficEventKind.newConnection),
       (3, TrafficEventKind.connectionClosed)]) := by
  refine ⟨?_, ?_, ?_, ?_, ?_⟩
  · intro t connections dns now hp hlen
    exact update_log_no_trim t connections dns now hp hlen
  · intro t connections dns now c hc hsk hl hnd
    unfold updateEvents
    rw [List.countP_append, countP_isNewFor_newStateEvents,
      countP_isNewFor_closedEvents]
    have hcongr : connections.countP
        (fun x => !diffSkip x && decide (x.key = c.key) &&
          decide (alookup t.prev_connections c.key = none)) =
        connections.countP (fun x => !diffSkip x && decide (x.key = c.key)) := by
      apply List.countP_congr
      intro x _
      simp [hl]
    rw [hcongr, countP_conns_key_eq_one hnd hc hsk rfl]
  · intro t connections dns now c info hc hsk hl hst hnd hwf
    unfold updateEvents
    rw [List.countP_append]
    have h1 : (newStateEvents t.prev_connections t.conn_data dns now
        connections).countP (isEventFor c.key) = 0 := by
      apply countP_isEventFor_newStateEvents_zero
      intro c' hc' hsk' hk'
      have hcf : c ∈ connections.filter (fun x => !diffSkip x) :=
        List.mem_filter.mpr ⟨hc, by simp [hsk]⟩
      have hcf' : c' ∈ connections.filter (fun x => !diffSkip x) :=
        List.mem_filter.mpr ⟨hc', by simp [hsk']⟩
      have hceq : c' = c :=
        List.inj_on_of_nodup_map hnd hcf' hcf (by rw [hk'])
      subst hceq
      exact newStateEvent_none_of_same_state hl hst
    have h2 : (closedEvents t.prev_connections
        (buildCurrent connections dns) t.conn_data now).countP
        (isEventFor c.key) = 0 := by
      apply countP_isEventFor_closedEvents_zero hwf
      intro hnone
      have := (buildCurrent_lookup_none connections dns c.key).mp hnone
      rcases this c hc with h | h
      · rw [hsk] at h; cases h
      · exact h rfl
    rw [h1, h2]
  · intro t connections dns now k info hmem hnd hwf habsent
    unfold updateEvents
    rw [List.countP_append, countP_isClosedFor_newStateEvents,
      countP_isClosedFor_closedEvents _ _ _ _ _ hwf]
    have hcur : alookup (buildCurrent connections dns) k = none := by
      rw [buildCurrent_lookup_none]
      intro c hc
      by_cases hsk : diffSkip c
      · left; exact hsk
      · right; exact habsent c hc (by simpa using hsk)
    rw [countP_prev_key_eq_one hnd hmem hcur]
  · rfl

/-- Claim C1 witness: the four general conjuncts applied to the concrete
chromeConn scenario trackers. -/
theorem C1_update_lifecycle_events_witness :
    (((TrafficTracker.new 5000).update [chromeConn] [] 1).log =
      (TrafficTracker.new 5000).log ++
        updateEvents (TrafficTracker.new 5000) [chromeConn] [] 1) ∧
    ((updateEvents (TrafficTracker.new 5000) [chromeConn] [] 1).countP
      (isNewFor chromeConn.key) = 1) ∧
    ((updateEvents ((TrafficTracker.new 5000).update [chromeConn] [] 1)
        [chromeConn] [] 2).countP (isEventFor chromeConn.key) = 0) ∧
    ((updateEvents ((TrafficTracker.new 5000).update [chromeConn] [] 1)
        [] [] 3).countP (isClosedFor chromeConn.key) = 1) := by
  refine ⟨?_, ?_, ?_, ?_⟩
  · exact C1_update_lifecycle_events.1 (TrafficTracker.new 5000) [chromeConn]
      [] 1 rfl (by decide)
  · exact C1_update_lifecycle_events.2.1 (TrafficTracker.new 5000)
      [chromeConn] [] 1 chromeConn (by decide) (by decide) rfl (by decide)
  · exact C1_update_lifecycle_events.2.2.1
      ((TrafficTracker.new 5000).update [chromeConn] [] 1) [chromeConn] [] 2
      chromeConn (⟨some .established, "chrome.exe", .tcp, true, none⟩ : ConnInfo)
      (by decide) (by decide) (by decide) (by decide) (by decide) (by decide)
  · exact C1_update_lifecycle_events.2.2.2.1
      ((TrafficTracker.new 5000).update [chromeConn] [] 1) [] [] 3
      chromeConn.key (⟨some .established, "chrome.exe", .tcp, true, none⟩ : ConnInfo)
      (by decide) (by decide) (by decide) (by decide)

-- ─── Claim C6: a paused tracker is frozen ────────────────────────────────────

/-- Concrete tracker used by the paused scenario: a fresh tracker with
paused set to true. -/
def pausedTracker : TrafficTracker :=
  { TrafficTracker.new 5000 with paused := true }

/-- Claim C6: when paused is true, update returns the tracker completely
unchanged (log, prev_connections, conn_data and all other fields) and emits
nothing; in the concrete scenario, updating a fresh paused tracker with a
new connection changes nothing, and after resuming, the next update emits
NewConnection for the still-present connection at that later tick. -/
theorem C6_paused_update_frozen :
    (∀ (t : TrafficTracker) (connections : List Connection) (dns : DnsCacheL)
        (now : Nat),
      t.paused = true → t.update connections dns now = t) ∧
    (pausedTracker.update [chromeConn] [] 1 = pausedTracker) ∧
    ((({ pausedTracker.update [chromeConn] [] 1 with
          paused := false } : TrafficTracker).update [chromeConn] [] 5).log.map
        (fun e : TrafficEntry => (e.timestamp, e.event)) =
      [(5, TrafficEventKind.newConnection)]) := by
  refine ⟨?_, rfl, rfl⟩
  intro t connections dns now hp
  unfold TrafficTracker.update
  rw [if_pos hp]

/-- Claim C6 witness: the frozen-update statement applied to the concrete
paused tracker. -/
theorem C6_paused_update_frozen_witness :
    pausedTracker.update [chromeConn] [] 3 = pausedTracker :=
  C6_paused_update_frozen.1 pausedTracker [chromeConn] [] 3 rfl

-- ─── Claim C10: clear empties the log but keeps the diff state ───────────────

theorem update_log_mem {t : TrafficTracker} {connections : List Connection}
    {dns : DnsCacheL} {now : Nat} {e : TrafficEntry}
    (he : e ∈ (t.update connections dns now).log) :
    e ∈ t.log ∨ e ∈ updateEvents t connections dns now := by
  unfold TrafficTracker.update at he
  by_cases hp : t.paused
  · rw [if_pos hp] at he
    left
    exact he
  · rw [if_neg hp] at he
    simp only at he
    set evs := newStateEvents t.prev_connections t.conn_data dns now
      connections with hevs
    set closed := closedEvents t.prev_connections
      (buildCurrent connections dns) t.conn_data now with hclosed
    set t1 := evs.foldl TrafficTracker.pushEvent t with ht1
    set t2 : TrafficTracker := { t1 with
      conn_data := t1.conn_data.filter
        (fun p => decide (p.1 ∉ (t.prev_connections.filter
          (fun q => decide (alookup (buildCurrent connections dns) q.1 =
            none))).map Prod.fst)) } with ht2
    have he3 : e ∈ (closed.foldl TrafficTracker.pushEvent t2).log := he
    rcases foldl_pushEvent_mem closed t2 e he3 with h | h
    · have he1 : e ∈ t1.log := h
      rcases foldl_pushEvent_mem evs t e he1 with h' | h'
      · left; exact h'
      · right
        unfold updateEvents
        exact List.mem_append.mpr (Or.inl h')
    · right
      unfold updateEvents
      exact List.mem_append.mpr (Or.inr h)

/-- Claim C10: clear empties the log and resets scroll_offset to 0 while
leaving prev_connections, conn_data and every other field unchanged; hence
an update right after clear with connections whose keys were all already
tracked emits no NewConnection event. -/
theorem C10_clear_keeps_diff_state :
    (∀ t : TrafficTracker,
      t.clear.log = [] ∧ t.clear.scroll_offset = 0 ∧
      t.clear.prev_connections = t.prev_connections ∧
      t.clear.conn_data = t.conn_data ∧
      t.clear.paused = t.paused ∧
      t.clear.max_log_size = t.max_log_size ∧
      t.clear.auto_scroll = t.auto_scroll ∧
      t.clear.filter_text = t.filter_text ∧
      t.clear.hide_localhost = t.hide_localhost) ∧
    (∀ (t : TrafficTracker) (connections : List Connection) (dns : DnsCacheL)
        (now : Nat),
      (∀ c ∈ connections, diffSkip c = false →
        (alookup t.prev_connections c.key).isSome = true) →
      ∀ e ∈ (t.clear.update connections dns now).log,
        ¬ e.event = TrafficEventKind.newConnection) := by
  constructor
  · intro t
    exact ⟨rfl, rfl, rfl, rfl, rfl, rfl, rfl, rfl, rfl⟩
  · intro t connections dns now hprev e he
    rcases update_log_mem he with h | h
    · cases h
    · unfold updateEvents at h
      rcases List.mem_append.mp h with h' | h'
      · obtain ⟨c, hcm, hce⟩ := List.mem_filterMap.mp h'
        obtain ⟨hsk, -, -, hcase⟩ := newStateEvent_some hce
        rcases hcase with ⟨hl, hev⟩ | ⟨info, ps, cs, -, -, -, -, hev⟩
        · have := hprev c hcm hsk
          have hclear : t.clear.prev_connections = t.prev_connections := rfl
          rw [hclear] at hl
          rw [hl] at this
          cases this
        · rw [hev]
          intro hcontra
          cases hcontra
      · obtain ⟨p, -, hpe⟩ := List.mem_map.mp h'
        rw [← hpe]
        intro hcontra
        cases hcontra

/-- Concrete connection used by the C10 witness: the chromeConn socket after
moving to CLOSE_WAIT. -/
def chromeConnCloseWait : Connection :=
  { chromeConn with state := some .closeWait }

/-- Concrete traffic entry used by the C10 witness: the StateChange event
emitted at tick 2 for chromeConn moving from ESTABLISHED to CLOSE_WAIT. -/
def c10StateChangeEntry : TrafficEntry :=
  { timestamp := 2
    event := .stateChange .established .closeWait
    proto := .tcp
    local_addr := .v4 10 0 0 1
    local_port := 55123
    remote_addr := some (.v4 142 250 80 46)
    remote_port := some 443
    process_name := "chrome.exe"
    outbound := true
    state_label := "CLOSE_WAIT"
    dns_name := none
    data_size := none }

/-- Claim C10 witness: after clearing the tracker that already tracks
chromeConn and updating with the same socket in CLOSE_WAIT state, the
entry found in the log is not a NewConnection event. -/
theorem C10_clear_keeps_diff_state_witness :
    ¬ c10StateChangeEntry.event = TrafficEventKind.newConnection :=
  C10_clear_keeps_diff_state.2
    ((TrafficTracker.new 5000).update [chromeConn] [] 1)
    [chromeConnCloseWait] [] 2 (by decide) c10StateChangeEntry (by decide)

-- ─── Claim C2: what the diff really excludes ─────────────────────────────────

/-- Concrete loopback-to-loopback TCP connection used by claim C2. -/
def loopbackConn : Connection :=
  { proto := .tcp
    local_addr := .v4 127 0 0 1
    local_port := 5000
    remote_addr := some (.v4 127 0 0 1)
    remote_port := some 8080
    state := some .established
    pid := 42
    process_name := "local.exe"
    dns_hostname := none }

/-- Claim C2 counterexample: a connection with loopback local and remote
addresses is not excluded from the traffic diff: updating a fresh tracker
with it emits a NewConnection event, contradicting the claim that such a
connection never contributes any event. -/
theorem C2_loopback_excluded_counterexample :
    loopbackConn.local_addr.isLoopback = true ∧
    (loopbackConn.remote_addr.map IpAddr.isLoopback) = some true ∧
    (((TrafficTracker.new 5000).update [loopbackConn] [] 1).log.map
      (fun e : TrafficEntry => (e.timestamp, e.event)) =
      [(1, TrafficEventKind.newConnection)]) :=
  ⟨rfl, rfl, rfl⟩

theorem countP_isEventFor_closedEvents_zero_of_not_prev
    {prev current : List (ConnKey × ConnInfo)} {cd : List (ConnKey × Nat)}
    {now : Nat} {k : ConnKey}
    (hwf : ∀ p ∈ prev, p.2.proto = p.1.proto)
    (hprev : alookup prev k = none) :
    (closedEvents prev current cd now).countP (isEventFor k) = 0 := by
  rw [List.countP_eq_zero]
  intro e he
  unfold closedEvents at he
  obtain ⟨p, hpm, hpe⟩ := List.mem_map.mp he
  have hpf := List.mem_filter.mp hpm
  have hproto := hwf p hpf.1
  have hkey : entryKey (closedEntry cd now p.1 p.2) = p.1 := by
    unfold entryKey closedEntry
    simp only
    rw [hproto]
  unfold isEventFor
  rw [← hpe, hkey]
  simp only [decide_eq_true_eq]
  intro hpk
  have hk : k ∈ prev.map Prod.fst := by
    rw [← hpk]
    exact List.mem_map.mpr ⟨p, hpf.1, rfl⟩
  have := (alookup_isSome_iff_mem_keys prev k).mpr hk
  rw [hprev] at this
  cases this

/-- Claim C2 amended: the traffic diff excludes TCP records in LISTEN state
and UDP records without a remote endpoint; loopback-to-loopback connections
are NOT excluded from the diff (a fresh one produces its NewConnection event
like any other connection) and are only suppressed at display time by the
hide_localhost view filter. A UDP socket without a remote endpoint whose key
is untracked contributes no event at all. -/
theorem C2_diff_exclusions_amended :
    (∀ (t : TrafficTracker) (connections : List Connection) (dns : DnsCacheL)
        (now : Nat) (c : Connection),
      c.proto = ConnProto.udp → c.remote_addr = none →
      alookup t.prev_connections c.key = none →
      (∀ p ∈ t.prev_connections, p.2.proto = p.1.proto) →
      (updateEvents t connections dns now).countP (isEventFor c.key) = 0) ∧
    (∀ (t : TrafficTracker) (connections : List Connection) (dns : DnsCacheL)
        (now : Nat) (c : Connection),
      c ∈ connections →
      c.local_addr.isLoopback = true →
      (c.remote_addr.map IpAddr.isLoopback) = some true →
      diffSkip c = false →
      alookup t.prev_connections c.key = none →
      ((connections.filter (fun x => !diffSkip x)).map Connection.key).Nodup →
      (updateEvents t connections dns now).countP (isNewFor c.key) = 1) := by
  constructor
  · intro t connections dns now c hudp hnorem hprev hwf
    unfold updateEvents
    rw [List.countP_append]
    have h1 : (newStateEvents t.prev_connections t.conn_data dns now
        connections).countP (isEventFor c.key) = 0 := by
      apply countP_isEventFor_newStateEvents_zero
      intro c' hc' hsk' hk'
      exfalso
      have hproto : c'.proto = c.proto := by
        have := congrArg ConnKey.proto hk'
        simpa [Connection.key] using this
      have hrem : c'.remote_addr = c.remote_addr := by
        have := congrArg ConnKey.remote_addr hk'
        simpa [Connection.key] using this
      have : diffSkip c' = true := by
        unfold diffSkip
        rw [hproto, hudp, hrem, hnorem]
        simp
      rw [hsk'] at this
      cases this
    have h2 : (closedEvents t.prev_connections
        (buildCurrent connections dns) t.conn_data now).countP
        (isEventFor c.key) = 0 :=
      countP_isEventFor_closedEvents_zero_of_not_prev hwf hprev
    rw [h1, h2]
  · intro t connections dns now c hc hlocal hremote hsk hl hnd
    unfold updateEvents
    rw [List.countP_append, countP_isNewFor_newStateEvents,
      countP_isNewFor_closedEvents]
    have hcongr : connections.countP
        (fun x => !diffSkip x && decide (x.key = c.key) &&
          decide (alookup t.prev_connections c.key = none)) =
        connections.countP (fun x => !diffSkip x && decide (x.key = c.key)) := by
      apply List.countP_congr
      intro x _
      simp [hl]
    rw [hcongr, countP_conns_key_eq_one hnd hc hsk rfl]

/-- Concrete UDP socket with no remote endpoint used by the C2 witness. -/
def udpBindConn : Connection :=
  { proto := .udp
    local_addr := .v4 10 0 0 1
    local_port := 5353
    remote_addr := none
    remote_port := none
    state := none
    pid := 77
    process_name := "svchost.exe"
    dns_hostname := none }

/-- Claim C2 amended witness: a fresh UDP bind contributes no event, and a
fresh loopback-to-loopback TCP connection contributes exactly one
NewConnection event. -/
theorem C2_diff_exclusions_amended_witness :
    ((updateEvents (TrafficTracker.new 5000) [udpBindConn] [] 1).countP
      (isEventFor udpBindConn.key) = 0) ∧
    ((updateEvents (TrafficTracker.new 5000) [loopbackConn] [] 1).countP
      (isNewFor loopbackConn.key) = 1) := by
  constructor
  · exact C2_diff_exclusions_amended.1 (TrafficTracker.new 5000)
      [udpBindConn] [] 1 udpBindConn rfl rfl rfl (by decide)
  · exact C2_diff_exclusions_amended.2 (TrafficTracker.new 5000)
      [loopbackConn] [] 1 loopbackConn (by decide) rfl rfl (by decide) rfl
      (by decide)

-- ─── src/ui/capture.rs: the hide_localhost view filter ───────────────────────

/-- Per-entry visibility predicate of the localhost filter in draw_traffic
(src/ui/capture.rs lines 19-26): an entry passes when its local address is
not loopback and its remote address, when present, is not loopback. -/
def localhostShown (e : TrafficEntry) : Bool :=
  !e.local_addr.isLoopback &&
    !((e.remote_addr.map IpAddr.isLoopback).getD false)

/-- The localhost filter applied by draw_traffic (src/ui/capture.rs lines
18-26): when hide_localhost is set, keep only entries passing the
visibility predicate; otherwise keep everything. -/
def applyLocalhostFilter (hide : Bool) (l : List TrafficEntry) :
    List TrafficEntry :=
  if hide then l.filter localhostShown else l

-- ─── Claim C9: which entries hide_localhost suppresses ───────────────────────

/-- Concrete entry with a loopback local address and a non-loopback remote
address, used to refute claim C9. -/
def c9HalfLoopbackEntry : TrafficEntry :=
  { timestamp := 1
    event := .newConnection
    proto := .tcp
    local_addr := .v4 127 0 0 1
    local_port := 9000
    remote_addr := some (.v4 142 250 80 46)
    remote_port := some 443
    process_name := "proxy.exe"
    outbound := true
    state_label := "ESTABLISHED"
    dns_name := none
    data_size := none }

/-- Claim C9 counterexample: an entry whose local address is loopback but
whose remote address is not loopback is suppressed by the hide_localhost
filter, contradicting the claim that only both-loopback entries are hidden
and one-loopback entries are still shown. -/
theorem C9_hide_localhost_counterexample :
    c9HalfLoopbackEntry.local_addr.isLoopback = true ∧
    (c9HalfLoopbackEntry.remote_addr.map IpAddr.isLoopback) = some false ∧
    applyLocalhostFilter true [c9HalfLoopbackEntry] = [] :=
  ⟨rfl, rfl, rfl⟩

/-- Claim C9 amended: hide_localhost suppresses exactly the entries whose
local address is loopback OR whose remote address is present and loopback;
both-loopback entries are suppressed, and an entry is shown precisely when
its local address is not loopback and its remote address, when present, is
not loopback. With hide_localhost off nothing is suppressed. -/
theorem C9_hide_localhost_amended :
    (∀ e : TrafficEntry, localhostShown e = false ↔
      (e.local_addr.isLoopback = true ∨
        ∃ a, e.remote_addr = some a ∧ a.isLoopback = true)) ∧
    (∀ (l : List TrafficEntry) (e : TrafficEntry),
      e ∈ applyLocalhostFilter true l ↔ e ∈ l ∧ localhostShown e = true) ∧
    (∀ l : List TrafficEntry, applyLocalhostFilter false l = l) := by
  refine ⟨?_, ?_, ?_⟩
  · intro e
    unfold localhostShown
    cases hr : e.remote_addr with
    | none =>
        simp [hr]
    | some a =>
        by_cases hl : e.local_addr.isLoopback <;>
          by_cases ha : a.isLoopback <;> simp [hr, hl, ha]
  · intro l e
    unfold applyLocalhostFilter
    rw [if_pos rfl]
    exact List.mem_filter
  · intro l
    rfl

/-- Claim C9 amended witness: the shown-iff characterization evaluated at
the concrete half-loopback entry, and the filter membership at a singleton
list. -/
theorem C9_hide_localhost_amended_witness :
    (localhostShown c9HalfLoopbackEntry = false ↔
      (c9HalfLoopbackEntry.local_addr.isLoopback = true ∨
        ∃ a, c9HalfLoopbackEntry.remote_addr = some a ∧
          a.isLoopback = true)) ∧
    (c9HalfLoopbackEntry ∈ applyLocalhostFilter true [c9HalfLoopbackEntry] ↔
      c9HalfLoopbackEntry ∈ [c9HalfLoopbackEntry] ∧
        localhostShown c9HalfLoopbackEntry = true) :=
  ⟨C9_hide_localhost_amended.1 c9HalfLoopbackEntry,
   C9_hide_localhost_amended.2.1 [c9HalfLoopbackEntry] c9HalfLoopbackEntry⟩

-- ─── src/app.rs: the DNS cache merge step of App::resolve_dns ────────────────

/-- One merge pass of App::resolve_dns (src/app.rs lines 143-154): for each
observed (ip, hostname) pair the entry API inserts Some hostname only when
the ip is absent from the cache (or_insert_with), never overwriting. -/
def dnsMerge (cache : List (IpAddr × Option String))
    (obs : List (IpAddr × String)) : List (IpAddr × Option String) :=
  obs.foldl
    (fun c p =>
      if (alookup c p.1).isSome then c else ainsert c p.1 (some p.2))
    cache

theorem dnsMerge_preserves (obs : List (IpAddr × String)) :
    ∀ (cache : List (IpAddr × Option String)) (ip : IpAddr)
      (v : Option String),
    alookup cache ip = some v → alookup (dnsMerge cache obs) ip = some v := by
  induction obs with
  | nil => intro cache ip v h; exact h
  | cons p t ih =>
      intro cache ip v h
      unfold dnsMerge
      rw [List.foldl_cons]
      by_cases hs : (alookup cache p.1).isSome
      · rw [if_pos hs]
        exact ih cache ip v h
      · rw [if_neg hs]
        apply ih
        rw [alookup_ainsert]
        by_cases hip : ip = p.1
        · exfalso
          rw [hip] at h
          rw [h] at hs
          exact hs rfl
        · rw [if_neg hip]
          exact h

theorem dnsMerge_first (obs : List (IpAddr × String)) :
    ∀ (cache : List (IpAddr × Option String)) (ip : IpAddr),
    alookup cache ip = none →
    alookup (dnsMerge cache obs) ip =
      (obs.find? (fun p => decide (p.1 = ip))).map (fun p => some p.2) := by
  induction obs with
  | nil => intro cache ip h; exact h
  | cons p t ih =>
      intro cache ip h
      unfold dnsMerge
      rw [List.foldl_cons]
      by_cases hip : p.1 = ip
      · rw [List.find?_cons_of_pos _ (by simp [hip])]
        have hs : ¬ ((alookup cache p.1).isSome = true) := by
          rw [hip, h]
          decide
        rw [if_neg hs]
        simp only [Option.map]
        apply dnsMerge_preserves
        rw [alookup_ainsert, if_pos hip.symm]
      · rw [List.find?_cons_of_neg _ (by simp [hip])]
        by_cases hs : (alookup cache p.1).isSome
        · rw [if_pos hs]
          exact ih cache ip h
        · rw [if_neg hs]
          apply ih
          rw [alookup_ainsert, if_neg (fun hc => hip hc.symm)]
          exact h

-- ─── Claim C7: the DNS merge is first-writer-wins and monotone ───────────────

/-- Claim C7: the resolve_dns merge step never overwrites or removes an
existing cache entry (so the cache is monotone within a session), merge
passes compose into one pass over the concatenated observation sequence,
and starting from an empty entry the cached hostname for an ip equals the
first observation recorded for it in the sequence. -/
theorem C7_dns_merge_first_writer_wins :
    (∀ (cache : List (IpAddr × Option String)) (obs : List (IpAddr × String))
        (ip : IpAddr) (v : Option String),
      alookup cache ip = some v →
      alookup (dnsMerge cache obs) ip = some v) ∧
    (∀ (cache : List (IpAddr × Option String))
        (o1 o2 : List (IpAddr × String)),
      dnsMerge (dnsMerge cache o1) o2 = dnsMerge cache (o1 ++ o2)) ∧
    (∀ (cache : List (IpAddr × Option String)) (obs : List (IpAddr × String))
        (ip : IpAddr),
      alookup cache ip = none →
      alookup (dnsMerge cache obs) ip =
        (obs.find? (fun p => decide (p.1 = ip))).map (fun p => some p.2)) := by
  refine ⟨?_, ?_, ?_⟩
  · intro cache obs ip v h
    exact dnsMerge_preserves obs cache ip v h
  · intro cache o1 o2
    unfold dnsMerge
    rw [List.foldl_append]
  · intro cache obs ip h
    exact dnsMerge_first obs cache ip h

/-- Claim C7 witness: starting from an empty cache, merging the observation
sequence [(goog, www.google.com), (goog, other.example)] caches the first
hostname for goog, and a later merge pass does not overwrite it. -/
theorem C7_dns_merge_first_writer_wins_witness :
    (alookup (dnsMerge [] [(IpAddr.v4 142 250 80 46, "www.google.com"),
        (IpAddr.v4 142 250 80 46, "other.example")])
      (IpAddr.v4 142 250 80 46) = some (some "www.google.com")) ∧
    (alookup (dnsMerge (dnsMerge [] [(IpAddr.v4 142 250 80 46,
        "www.google.com")]) [(IpAddr.v4 142 250 80 46, "other.example")])
      (IpAddr.v4 142 250 80 46) = some (some "www.google.com")) := by
  constructor
  · rw [C7_dns_merge_first_writer_wins.2.2 [] _ _ rfl]
    rfl
  · exact C7_dns_merge_first_writer_wins.1 _ _ _ _ (by decide)

-- ─── src/network/sniffer.rs: extract_best_snippet ────────────────────────────

/-- Printable-or-whitespace test of the run scanner in extract_best_snippet
(src/network/sniffer.rs lines 401-405): 0x20..0x7E, carriage return, line
feed or tab. -/
def isTextByte (b : Nat) : Bool :=
  (decide (0x20 ≤ b) && decide (b ≤ 0x7E)) || b == 13 || b == 10 || b == 9

/-- Run discovery loop of extract_best_snippet (lines 397-420): maximal runs
of text bytes of length at least 6, as (start, stop) index pairs, with the
final open run flushed after the loop. -/
def findRuns (data : List Nat) : List (Nat × Nat) :=
  let step := fun (st : List (Nat × Nat) × Option Nat) (p : Nat × Nat) =>
    match isTextByte p.2, st.2 with
    | true, none => (st.1, some p.1)
    | false, some start =>
        (if 6 ≤ p.1 - start then st.1 ++ [(start, p.1)] else st.1, none)
    | _, _ => st
  let fin := data.enum.foldl step ([], none)
  match fin.2 with
  | some start =>
      if 6 ≤ data.length - start then fin.1 ++ [(start, data.length)]
      else fin.1
  | none => fin.1

/-- Byte slice data[start..stop]. -/
def sliceBytes (data : List Nat) (s e : Nat) : List Nat :=
  (data.take e).drop s

/-- Word-like byte test of the run scorer (lines 430-435): ASCII
alphanumeric, space, slash, colon, dot, comma, dash, equals, line feed or
carriage return. -/
def isScoreByte (b : Nat) : Bool :=
  (decide (48 ≤ b) && decide (b ≤ 57)) ||
  (decide (65 ≤ b) && decide (b ≤ 90)) ||
  (decide (97 ≤ b) && decide (b ≤ 122)) ||
  b == 32 || b == 47 || b == 58 || b == 46 || b == 44 || b == 45 ||
  b == 61 || b == 10 || b == 13

/-- Run score (lines 426-437): length times the percentage of word-like
bytes. -/
def runScore (data : List Nat) (r : Nat × Nat) : Nat :=
  let slice := sliceBytes data r.1 r.2
  let len := slice.length
  let text_chars := (slice.filter isScoreByte).length
  len * ((text_chars * 100) / max len 1)

/-- Readability byte test of the final 40-percent check (lines 446-453):
the word-like set extended with underscore, question mark, ampersand,
double quote, single quote, braces and brackets. -/
def isReadableByte (b : Nat) : Bool :=
  isScoreByte b || b == 95 || b == 63 || b == 38 || b == 34 || b == 39 ||
  b == 123 || b == 125 || b == 91 || b == 93

/-- Model of Iterator::max_by_key (line 426): the LAST run of maximal score
is kept, since later elements replace the current best on ties. -/
def bestRun (data : List Nat) (runs : List (Nat × Nat)) :
    Option (Nat × Nat) :=
  runs.foldl
    (fun best r =>
      match best with
      | none => some r
      | some b =>
          if runScore data b ≤ runScore data r then some r else some b)
    none

/-- One iteration of the rendering loop (lines 463-477): stop consuming once
the result holds maxLen characters, copy printable bytes verbatim, and emit
one three-character separator per whitespace run. -/
def renderStep (maxLen : Nat) (st : List Char × Bool) (b : Nat) :
    List Char × Bool :=
  if maxLen ≤ st.1.length then st
  else if decide (0x20 ≤ b) && decide (b ≤ 0x7E) then
    (st.1 ++ [Char.ofNat b], false)
  else if b == 13 || b == 10 || b == 9 then
    if st.2 then st else (st.1 ++ [' ', '|', ' '], true)
  else st

/-- Fuel-driven model of str::trim_end_matches with the separator pattern
(line 480): repeatedly strip one trailing separator.  Fuel equal to the
string length suffices because each strip removes three characters. -/
def stripSepSuffixGo : Nat → List Char → List Char
  | 0, s => s
  | fuel + 1, s =>
      if [' ', '|', ' '].isSuffixOf s then
        stripSepSuffixGo fuel (s.take (s.length - 3))
      else s

/-- Model of str::trim_end_matches applied to the separator (line 480). -/
def stripSepSuffix (s : List Char) : List Char :=
  stripSepSuffixGo s.length s

/-- ASCII whitespace tested by str::trim on the ASCII-only render output
(line 480). -/
def isWsChar (c : Char) : Bool :=
  c == ' ' || c == '\t' || c == '\n' || c == '\r'

/-- Model of str::trim on the render output (line 480). -/
def trimChars (s : List Char) : List Char :=
  ((s.dropWhile isWsChar).reverse.dropWhile isWsChar).reverse

/-- Rendering phase of extract_best_snippet (lines 459-481): fold the
render step over the chosen slice, then strip trailing separators and trim
whitespace. -/
def renderSnippet (slice : List Nat) (maxLen : Nat) : String :=
  let res := slice.foldl (renderStep maxLen) ([], false)
  String.mk (trimChars (stripSepSuffix res.1))

/-- extract_best_snippet from src/network/sniffer.rs lines 395-481. -/
def extract_best_snippet (data : List Nat) (maxLen : Nat) : String :=
  let runs := findRuns data
  if runs.isEmpty then ""
  else
    match bestRun data runs with
    | none => ""
    | some r =>
        let slice := sliceBytes data r.1 r.2
        let text_chars := (slice.filter isReadableByte).length
        let ratio := (text_chars * 100) / max slice.length 1
        if ratio < 40 then "" else renderSnippet slice maxLen

-- ─── Render length bound lemmas ──────────────────────────────────────────────

theorem renderFold_inv (maxLen : Nat) (slice : List Nat) :
    ∀ st : List Char × Bool,
    (st.1.length ≤ maxLen ∨
      (st.1.length ≤ maxLen + 2 ∧ [' ', '|', ' '].isSuffixOf st.1)) →
    ((slice.foldl (renderStep maxLen) st).1.length ≤ maxLen ∨
      ((slice.foldl (renderStep maxLen) st).1.length ≤ maxLen + 2 ∧
        [' ', '|', ' '].isSuffixOf (slice.foldl (renderStep maxLen) st).1)) := by
  induction slice with
  | nil => intro st h; exact h
  | cons b bs ih =>
      intro st h
      rw [List.foldl_cons]
      apply ih
      unfold renderStep
      by_cases h1 : maxLen ≤ st.1.length
      · rw [if_pos h1]
        exact h
      · rw [if_neg h1]
        by_cases h2 : (decide (0x20 ≤ b) && decide (b ≤ 0x7E)) = true
        · rw [if_pos h2]
          left
          simp only [List.length_append, List.length_cons, List.length_nil]
          omega
        · rw [if_neg h2]
          by_cases h3 : (b == 13 || b == 10 || b == 9) = true
          · rw [if_pos h3]
            by_cases h4 : st.2
            · rw [if_pos h4]
              exact h
            · rw [if_neg h4]
              right
              constructor
              · simp only [List.length_append, List.length_cons,
                  List.length_nil]
                omega
              · exact List.isSuffixOf_iff_suffix.mpr
                  (List.suffix_append st.1 [' ', '|', ' '])
          · rw [if_neg h3]
            exact h

theorem stripSepSuffixGo_length_le :
    ∀ (fuel : Nat) (s : List Char),
    (stripSepSuffixGo fuel s).length ≤ s.length := by
  intro fuel
  induction fuel with
  | zero => intro s; exact Nat.le_refl _
  | succ n ih =>
      intro s
      unfold stripSepSuffixGo
      by_cases h : [' ', '|', ' '].isSuffixOf s
      · rw [if_pos h]
        calc (stripSepSuffixGo n (s.take (s.length - 3))).length
            ≤ (s.take (s.length - 3)).length := ih _
          _ ≤ s.length := by
              rw [List.length_take]
              omega
      · rw [if_neg h]

theorem stripSepSuffix_length_of_suffix {s : List Char}
    (h : [' ', '|', ' '].isSuffixOf s) :
    (stripSepSuffix s).length + 3 ≤ s.length := by
  have hlen : 3 ≤ s.length := by
    have := List.isSuffixOf_iff_suffix.mp h
    have := this.length_le
    simpa using this
  unfold stripSepSuffix
  cases hs : s.length with
  | zero => omega
  | succ n =>
      unfold stripSepSuffixGo
      rw [if_pos h]
      have h1 := stripSepSuffixGo_length_le n (s.take (s.length - 3))
      have h2 : (s.take (s.length - 3)).length = s.length - 3 := by
        rw [List.length_take]
        omega
      omega

theorem trimChars_length_le (s : List Char) :
    (trimChars s).length ≤ s.length := by
  unfold trimChars
  calc ((s.dropWhile isWsChar).reverse.dropWhile isWsChar).reverse.length
      = ((s.dropWhile isWsChar).reverse.dropWhile isWsChar).length := by
        rw [List.length_reverse]
    _ ≤ (s.dropWhile isWsChar).reverse.length :=
        (List.dropWhile_suffix isWsChar).length_le
    _ = (s.dropWhile isWsChar).length := by rw [List.length_reverse]
    _ ≤ s.length := (List.dropWhile_suffix isWsChar).length_le

theorem renderSnippet_length_le (slice : List Nat) (maxLen : Nat) :
    (renderSnippet slice maxLen).length ≤ maxLen := by
  unfold renderSnippet
  have hinv := renderFold_inv maxLen slice ([], false) (by left; simp)
  set res := slice.foldl (renderStep maxLen) ([], false) with hres
  have hstr : (String.mk (trimChars (stripSepSuffix res.1))).length =
      (trimChars (stripSepSuffix res.1)).length := rfl
  rw [hstr]
  rcases hinv with h | ⟨hle, hsuf⟩
  · calc (trimChars (stripSepSuffix res.1)).length
        ≤ (stripSepSuffix res.1).length := trimChars_length_le _
      _ ≤ res.1.length := stripSepSuffixGo_length_le _ _
      _ ≤ maxLen := h
  · have hstrip := stripSepSuffix_length_of_suffix hsuf
    calc (trimChars (stripSepSuffix res.1)).length
        ≤ (stripSepSuffix res.1).length := trimChars_length_le _
      _ ≤ maxLen := by omega

-- ─── Claim C8: the snippet renderer ──────────────────────────────────────────

/-- Claim C8: for every payload the extracted snippet holds at most 200
characters when called with max_len 200 (as the sniffer does); on the
concrete HTTP-like payload GET / HTTP the printable bytes are copied
verbatim and the whitespace run CR LF CR LF collapses into one single
separator with no two separators in a row; a payload ending in CR LF has
its trailing separator trimmed away. -/
theorem C8_extract_best_snippet :
    (∀ data : List Nat, (extract_best_snippet data 200).length ≤ 200) ∧
    (extract_best_snippet
        [71, 69, 84, 32, 47, 13, 10, 13, 10, 72, 111, 115, 116] 200 =
      "GET / | Host") ∧
    (extract_best_snippet [72, 101, 108, 108, 111, 33, 13, 10] 200 =
      "Hello!") := by
  refine ⟨?_, by decide, by decide⟩
  intro data
  unfold extract_best_snippet
  by_cases h1 : (findRuns data).isEmpty
  · rw [if_pos h1]
    simp
  · rw [if_neg h1]
    cases hbr : bestRun data (findRuns data) with
    | none => simp
    | some r =>
        simp only
        by_cases h2 : ((sliceBytes data r.1 r.2).filter
            isReadableByte).length * 100 /
            max (sliceBytes data r.1 r.2).length 1 < 40
        · rw [if_pos h2]
          simp
        · rw [if_neg h2]
          exact renderSnippet_length_le _ _
